import Mathlib

/-!
Shallow embedding of the A2A playground task lifecycle engine
(`src/server/tasks.js`), its protocol value objects (`src/shared/types.js`)
and the streaming-connection sink (`StreamingConnection` in the server file),
together with proofs settling the frozen claims about the specification.

Modelling conventions:
* JS `Map`s become association lists (`List (String × α)`); `Map.set`
  updates in place or appends, preserving insertion order, `Map.delete`
  filters, mirroring JS iteration-order semantics.
* Nullable JS values become `Option`; a task created by `createTask` has
  `history = none` (the JS value is `null`) and `artifacts = some []`.
* Engine methods that mutate `this` and may throw are translated to
  functions returning `ManagerState × Output × Except ε α`: the returned
  state carries every mutation performed before a throw, exactly as the
  mutations on the JS object persist when an exception propagates.
* `Output` collects the externally observable effects of a call: events
  written to streaming connections (`connection.sendEvent`), connections
  closed (`connection.close`), push-notification dispatches
  (`sendPushNotification` fire-and-forget calls), and — as a semantic
  observation — the task copies handed to `skill.process`.
* Inert metadata fields (`metadata` on `Message`/`Part`/`Artifact`, the
  `data` payload of a JSON-RPC error, the `authentication` object of a
  push config) are never read by any engine code path and are omitted;
  `Task.metadata` keeps the one field the engine reads, `metadata.skill`,
  (the orchestration skill stashes further state only on its private deep
  copy, which the engine never reads back).
* Skill implementations are external collaborators (they call LLM
  providers); they enter the embedding as parameters of type
  `String → Option Skill` mirroring the `skills` registry lookup.  A
  skill invocation receives the deep copy of the task, may return an
  arbitrarily mutated version of that copy inside its result, and either
  resolves with `{message, artifacts}` or rejects with an error message.
-/

namespace A2A

/-- Task states from `TaskState` in `src/shared/types.js`. -/
inductive TaskState
  | submitted
  | working
  | inputRequired
  | completed
  | canceled
  | failed
  | unknown
deriving DecidableEq, Repr

/-- The `terminalStates.includes(state)` test used at `tasks.js` lines 227-228,
313 and 414: `['completed', 'canceled', 'failed']`. -/
def isTerminalState : TaskState → Bool
  | TaskState.completed => true
  | TaskState.canceled => true
  | TaskState.failed => true
  | _ => false

/-- Message parts (`createTextPart` / `createFilePart` / `createDataPart` in
`src/shared/types.js`); the `data` payload is kept as an opaque string. -/
inductive Part
  | text (text : String)
  | file (name : String) (mimeType : String) (bytes : Option String) (uri : Option String)
  | data (payload : String)
deriving DecidableEq, Repr

/-- `createMessage(role, parts)` from `src/shared/types.js`. -/
structure Message where
  role : String
  parts : List Part
deriving DecidableEq, Repr

/-- `createTaskStatus(state, message, timestamp)`; timestamps are epoch
milliseconds (`new Date().toISOString()` ordered by time). -/
structure TaskStatus where
  state : TaskState
  message : Option Message
  timestamp : Int
deriving DecidableEq, Repr

/-- `createArtifact` from `src/shared/types.js`. -/
structure Artifact where
  name : String
  description : Option String
  parts : List Part
  index : Nat
  append : Bool
  lastChunk : Bool
deriving DecidableEq, Repr

/-- The one metadata field the engine reads: `task.metadata?.skill`
(`determineSkill`, `tasks.js` line 371). -/
structure TaskMetadata where
  skill : Option String
deriving DecidableEq, Repr

/-- `createTask(id, status, sessionId, artifacts, history, metadata)` from
`src/shared/types.js`. -/
structure Task where
  id : String
  sessionId : Option String
  status : TaskStatus
  artifacts : Option (List Artifact)
  history : Option (List Message)
  metadata : TaskMetadata
deriving DecidableEq, Repr

/-- Per-task webhook configuration (`pushNotificationConfigs` map values). -/
structure PushNotificationConfig where
  url : String
  token : Option String
deriving DecidableEq, Repr

/-- `createJsonRpcError(code, message)` from `src/shared/types.js`; the
optional structured `data` member is never inspected by engine logic. -/
structure JsonRpcError where
  code : Int
  message : String
deriving DecidableEq, Repr

namespace ErrorCodes

/-- JSON-RPC error codes from `ErrorCodes` in `src/shared/types.js`. -/
def INVALID_PARAMS : Int := -32602

def INTERNAL_ERROR : Int := -32603

def TASK_NOT_FOUND : Int := -32001

def TASK_NOT_CANCELABLE : Int := -32002

def INVALID_TASK_STATE : Int := -32009

end ErrorCodes

/-- Association-list counterpart of `Map.prototype.get`. -/
def lookupA {α : Type} : List (String × α) → String → Option α
  | [], _ => none
  | (k, v) :: rest, key => if k = key then some v else lookupA rest key

/-- Association-list counterpart of `Map.prototype.set`: replaces in place
(preserving insertion order) or appends a fresh key at the end. -/
def setA {α : Type} : List (String × α) → String → α → List (String × α)
  | [], key, v => [(key, v)]
  | (k, w) :: rest, key, v =>
    if k = key then (k, v) :: rest else (k, w) :: setA rest key v

/-- Association-list counterpart of `Map.prototype.delete`. -/
def eraseA {α : Type} (m : List (String × α)) (key : String) : List (String × α) :=
  m.filter (fun p => p.1 != key)

@[simp] theorem lookupA_nil {α : Type} (key : String) :
    lookupA ([] : List (String × α)) key = none := rfl

@[simp] theorem lookupA_cons {α : Type} (k : String) (v : α) (rest : List (String × α))
    (key : String) :
    lookupA ((k, v) :: rest) key = if k = key then some v else lookupA rest key := rfl

theorem lookupA_setA_self {α : Type} (m : List (String × α)) (key : String) (v : α) :
    lookupA (setA m key v) key = some v := by
  induction m with
  | nil => simp [setA]
  | cons p rest ih =>
    obtain ⟨k, w⟩ := p
    by_cases h : k = key <;> simp [setA, h, ih]

theorem lookupA_setA_ne {α : Type} (m : List (String × α)) (key k2 : String) (v : α)
    (h : key ≠ k2) : lookupA (setA m key v) k2 = lookupA m k2 := by
  induction m with
  | nil => simp [setA, h]
  | cons p rest ih =>
    obtain ⟨k, w⟩ := p
    by_cases hk : k = key
    · subst hk; simp [setA, h]
    · simp only [setA, if_neg hk, lookupA_cons, ih]

theorem lookupA_eraseA_self {α : Type} (m : List (String × α)) (key : String) :
    lookupA (eraseA m key) key = none := by
  induction m with
  | nil => rfl
  | cons p rest ih =>
    obtain ⟨k, w⟩ := p
    by_cases h : k = key
    · subst h; simpa [eraseA, List.filter_cons] using ih
    · simpa [eraseA, List.filter_cons, h, bne_iff_ne] using ih

/-- The mutable fields of `TaskManager` (`tasks.js` constructor, lines 17-22):
`tasks`, `sessions`, `pushNotificationConfigs` and `streamingConnections`.
Streaming connections are identified by opaque numeric ids. -/
structure ManagerState where
  tasks : List (String × Task)
  sessions : List (String × List String)
  pushConfigs : List (String × PushNotificationConfig)
  streams : List (String × List Nat)
deriving DecidableEq, Repr

/-- Payload of a `connection.sendEvent(eventType, data, isFinal)` call: the
`eventType` string of the JS call corresponds to the constructor. -/
inductive EventPayload
  | status (s : TaskStatus)
  | artifact (a : Artifact)
deriving DecidableEq, Repr

/-- One `sendEvent` delivery to one streaming connection. -/
structure StreamEvent where
  conn : Nat
  payload : EventPayload
  final : Bool
deriving DecidableEq, Repr

/-- Observable effects of an engine call: `events` in delivery order,
`closed` connections (`connection.close()`), `pushes` the task ids for which
`sendPushNotification` was dispatched, and `skillCalls` the deep copies
handed to `skill.process`. -/
structure Output where
  events : List StreamEvent
  closed : List Nat
  pushes : List String
  skillCalls : List Task
deriving DecidableEq, Repr

def Output.empty : Output := ⟨[], [], [], []⟩

def Output.app (a b : Output) : Output :=
  ⟨a.events ++ b.events, a.closed ++ b.closed, a.pushes ++ b.pushes,
    a.skillCalls ++ b.skillCalls⟩

@[simp] theorem Output.app_empty (a : Output) : Output.app a Output.empty = a := by
  simp [Output.app, Output.empty]

@[simp] theorem Output.empty_app (a : Output) : Output.app Output.empty a = a := by
  simp [Output.app, Output.empty]

/-- The error raised for a missing task id (`tasks.js` lines 62-66, 85-89,
117-121). -/
def taskNotFoundError : JsonRpcError :=
  ⟨ErrorCodes.TASK_NOT_FOUND, "Task not found"⟩

namespace TaskManager

/-- `TaskManager.createTask` (`tasks.js` lines 25-55).  The error branch
returns the state unchanged because the JS method throws before any
mutation.  The stored task is
`createTask(id, createTaskStatus('submitted', message), sessionId, [], null, {})`. -/
def createTask (st : ManagerState) (id : String) (sessionId : Option String)
    (message : Option Message) (now : Int) :
    ManagerState × Except JsonRpcError Task :=
  if (lookupA st.tasks id).isSome then
    (st, Except.error ⟨ErrorCodes.INVALID_PARAMS, "Task with this ID already exists"⟩)
  else
    let status : TaskStatus := ⟨TaskState.submitted, message, now⟩
    let task : Task := ⟨id, sessionId, status, some [], none, ⟨none⟩⟩
    let st1 : ManagerState := { st with tasks := setA st.tasks id task }
    let st2 : ManagerState :=
      match sessionId with
      | some sid =>
        { st1 with sessions := setA st1.sessions sid ((lookupA st1.sessions sid).getD [] ++ [id]) }
      | none => st1
    (st2, Except.ok task)

/-- `TaskManager.getTask` (`tasks.js` lines 58-78): deep copy of the stored
task, with `history.slice(-historyLength)` applied when `historyLength > 0`
and the stored history is not `null`. -/
def getTask (st : ManagerState) (taskId : String) (historyLength : Nat) :
    Except JsonRpcError Task :=
  match lookupA st.tasks taskId with
  | none => Except.error taskNotFoundError
  | some task =>
    if historyLength > 0 then
      match task.history with
      | some h => Except.ok { task with history := some (h.drop (h.length - historyLength)) }
      | none => Except.ok task
    else Except.ok task

/-- `TaskManager.notifyStreamingConnections` (`tasks.js` lines 308-324):
with no registry entry it returns at once; otherwise it re-reads the stored
task, tags the event `final` iff the current state is terminal, delivers to
every registered connection, and on a terminal state closes every
connection and drops the registry entry. -/
def notifyStreamingConnections (st : ManagerState) (taskId : String)
    (payload : EventPayload) : ManagerState × Output × Except JsonRpcError Unit :=
  match lookupA st.streams taskId with
  | none => (st, Output.empty, Except.ok ())
  | some conns =>
    match getTask st taskId 0 with
    | Except.error e => (st, Output.empty, Except.error e)
    | Except.ok task =>
      let fin := isTerminalState task.status.state
      let evs := conns.map (fun c => StreamEvent.mk c payload fin)
      if fin then
        ({ st with streams := eraseA st.streams taskId }, ⟨evs, conns, [], []⟩, Except.ok ())
      else
        (st, ⟨evs, [], [], []⟩, Except.ok ())

/-- The history-archival step of `TaskManager.updateTaskStatus` (`tasks.js`
lines 92-99): append the outgoing status message to history when present
(initialising `history` from `null`), then install the new status. -/
def archiveStatus (task : Task) (newStatus : TaskStatus) : Task :=
  let task1 :=
    match task.status.message with
    | some m => { task with history := some (task.history.getD [] ++ [m]) }
    | none => task
  { task1 with status := newStatus }

/-- `TaskManager.updateTaskStatus` (`tasks.js` lines 81-110): archives the
outgoing status message into history, installs the new status, notifies
streaming connections with the freshly stored status, and dispatches a push
notification when a config is registered. -/
def updateTaskStatus (st : ManagerState) (taskId : String) (newStatus : TaskStatus) :
    ManagerState × Output × Except JsonRpcError Task :=
  match lookupA st.tasks taskId with
  | none => (st, Output.empty, Except.error taskNotFoundError)
  | some task =>
    let task2 := archiveStatus task newStatus
    let stA : ManagerState := { st with tasks := setA st.tasks taskId task2 }
    let nr := notifyStreamingConnections stA taskId (EventPayload.status task2.status)
    match nr.2.2 with
    | Except.error e => (nr.1, nr.2.1, Except.error e)
    | Except.ok _ =>
      let o2 :=
        if (lookupA nr.1.pushConfigs taskId).isSome then
          Output.app nr.2.1 ⟨[], [], [taskId], []⟩
        else nr.2.1
      (nr.1, o2, Except.ok task2)

/-- The `artifacts.forEach(... notifyStreamingConnections ...)` loop of
`TaskManager.addArtifacts` (`tasks.js` lines 128-130). -/
def notifyArtifacts : ManagerState → String → List Artifact →
    ManagerState × Output × Except JsonRpcError Unit
  | st, _, [] => (st, Output.empty, Except.ok ())
  | st, taskId, a :: rest =>
    let nr := notifyStreamingConnections st taskId (EventPayload.artifact a)
    match nr.2.2 with
    | Except.error e => (nr.1, nr.2.1, Except.error e)
    | Except.ok _ =>
      let nx := notifyArtifacts nr.1 taskId rest
      (nx.1, Output.app nr.2.1 nx.2.1, nx.2.2)

/-- `TaskManager.addArtifacts` (`tasks.js` lines 113-133). -/
def addArtifacts (st : ManagerState) (taskId : String) (artifacts : List Artifact) :
    ManagerState × Output × Except JsonRpcError Task :=
  match lookupA st.tasks taskId with
  | none => (st, Output.empty, Except.error taskNotFoundError)
  | some task =>
    let task1 := { task with artifacts := some (task.artifacts.getD [] ++ artifacts) }
    let stA : ManagerState := { st with tasks := setA st.tasks taskId task1 }
    let nr := notifyArtifacts stA taskId artifacts
    match nr.2.2 with
    | Except.error e => (nr.1, nr.2.1, Except.error e)
    | Except.ok _ => (nr.1, nr.2.1, Except.ok task1)

end TaskManager

/-- JS `String.prototype.toLowerCase` on the ASCII keywords involved. -/
def toLower (s : String) : String := String.mk (s.data.map Char.toLower)

/-- JS `String.prototype.includes`. -/
def strContains (s pat : String) : Bool := decide (List.IsInfix pat.data s.data)

/-- The keyword scan applied to one lower-cased text part
(`determineSkill`, `tasks.js` lines 380-398), keyword sets in source
priority order. -/
def keywordSkill (text : String) : Option String :=
  if strContains text "analyze" || strContains text "sentiment" then
    some "text-analysis"
  else if strContains text "image" || strContains text "photo" || strContains text "picture" then
    some "image-processing"
  else if strContains text "convert" || strContains text "transform" ||
      strContains text "csv" || strContains text "json" then
    some "data-transformation"
  else if strContains text "batch" || strContains text "pipeline" ||
      strContains text "orchestrate" then
    some "task-orchestration"
  else none

/-- The `for (const part of message.parts)` loop of `determineSkill`:
non-text parts are skipped, the first text part matching a keyword decides. -/
def scanParts : List Part → Option String
  | [] => none
  | Part.text s :: rest =>
    match keywordSkill (toLower s) with
    | some k => some k
    | none => scanParts rest
  | _ :: rest => scanParts rest

/-- `TaskManager.determineSkill` (`tasks.js` lines 369-403): a truthy
`metadata.skill` wins (the empty string is falsy in JS), else the triggering
message is scanned, `null` is returned when there is no message, and
`text-analysis` is the fallback. -/
def determineSkill (task : Task) : Option String :=
  let fromMessage : Option String :=
    match task.status.message with
    | none => none
    | some msg => some ((scanParts msg.parts).getD "text-analysis")
  match task.metadata.skill with
  | some s => if s = "" then fromMessage else some s
  | none => fromMessage

/-- Result of a skill invocation (`{message, artifacts}` as produced by the
handlers in `src/server/skills.js`); `task` is the deep copy the skill
received, carrying whatever in-place mutations the skill performed on it
(e.g. `requestUserInput` setting `status` to `input-required`,
`skills.js` lines 385-399). -/
structure SkillResult where
  task : Task
  message : Option Message
  artifacts : List Artifact

/-- A capability from the `skills` registry: `process` always exists, and
only `task-orchestration` exposes `continueOrchestration`
(`src/server/skills.js`).  Rejections carry the JS error message. -/
structure Skill where
  process : Task → Except String SkillResult
  continueOrchestration : Option (Task → Except String SkillResult)

/-- A skills registry (`skills[skillId]` lookup in `tasks.js`). -/
def SkillRegistry : Type := String → Option Skill

/-- An error propagating out of `processTask` / `continueTask`: either a
thrown JSON-RPC error object or a plain JS `Error` with a message. -/
inductive EngineError
  | rpc (e : JsonRpcError)
  | js (message : String)
deriving DecidableEq, Repr

/-- `error.message` of whatever was thrown (a JSON-RPC error object also
carries a `message` member). -/
def EngineError.msg : EngineError → String
  | EngineError.rpc e => e.message
  | EngineError.js m => m

namespace TaskManager

/-- The `catch` block of `TaskManager.processTask` (`tasks.js` lines
165-175): install a `failed` status carrying a synthesized agent message
with the error text, then re-raise the original error. -/
def processTaskCatch (st : ManagerState) (taskId : String) (origErr : EngineError)
    (now2 : Int) : ManagerState × Output × Except EngineError Task :=
  let errorMessage : Message := ⟨"agent", [Part.text ("Error: " ++ origErr.msg)]⟩
  let ur := updateTaskStatus st taskId ⟨TaskState.failed, some errorMessage, now2⟩
  match ur.2.2 with
  | Except.error e2 => (ur.1, ur.2.1, Except.error (EngineError.rpc e2))
  | Except.ok _ => (ur.1, ur.2.1, Except.error origErr)

/-- The result-application step of `TaskManager.processTask` (`tasks.js`
lines 149-176): the code the engine runs once the awaited skill invocation
settles.  On success it appends the returned artifacts when there are any
and installs a `completed` status carrying the returned message — with no
check whether the stored status has become terminal in the meantime; on
failure the `catch` block runs. -/
def applySkillResult (st : ManagerState) (taskId : String)
    (outcome : Except String SkillResult) (now2 : Int) :
    ManagerState × Output × Except EngineError Task :=
  match outcome with
  | Except.error emsg => processTaskCatch st taskId (EngineError.js emsg) now2
  | Except.ok result =>
    let ar := if 0 < result.artifacts.length
              then addArtifacts st taskId result.artifacts
              else (st, Output.empty, Except.ok result.task)
    match ar.2.2 with
    | Except.error e =>
      let cr := processTaskCatch ar.1 taskId (EngineError.rpc e) now2
      (cr.1, Output.app ar.2.1 cr.2.1, cr.2.2)
    | Except.ok _ =>
      let ur := updateTaskStatus ar.1 taskId ⟨TaskState.completed, result.message, now2⟩
      match ur.2.2 with
      | Except.error e =>
        let cr := processTaskCatch ur.1 taskId (EngineError.rpc e) now2
        (cr.1, Output.app ar.2.1 (Output.app ur.2.1 cr.2.1), cr.2.2)
      | Except.ok _ =>
        match getTask ur.1 taskId 0 with
        | Except.error e =>
          let cr := processTaskCatch ur.1 taskId (EngineError.rpc e) now2
          (cr.1, Output.app ar.2.1 (Output.app ur.2.1 cr.2.1), cr.2.2)
        | Except.ok t => (ur.1, Output.app ar.2.1 ur.2.1, Except.ok t)

/-- `TaskManager.processTask` (`tasks.js` lines 136-176): fetch a deep copy,
resolve the skill, transition to `working`, invoke the capability on the
copy (recorded in `Output.skillCalls`), then apply the result.  The copy is
never written back: nothing the skill does to it reaches the store. -/
def processTask (skills : SkillRegistry) (st : ManagerState) (taskId : String)
    (now1 now2 : Int) : ManagerState × Output × Except EngineError Task :=
  match getTask st taskId 0 with
  | Except.error e => (st, Output.empty, Except.error (EngineError.rpc e))
  | Except.ok task =>
    match determineSkill task with
    | none => (st, Output.empty, Except.error (EngineError.js "Unknown skill: null"))
    | some sid =>
      match skills sid with
      | none => (st, Output.empty, Except.error (EngineError.js ("Unknown skill: " ++ sid)))
      | some skill =>
        let ur := updateTaskStatus st taskId ⟨TaskState.working, none, now1⟩
        match ur.2.2 with
        | Except.error e => (ur.1, ur.2.1, Except.error (EngineError.rpc e))
        | Except.ok _ =>
          let o1b := Output.app ur.2.1 ⟨[], [], [], [task]⟩
          let sr := applySkillResult ur.1 taskId (skill.process task) now2
          (sr.1, Output.app o1b sr.2.1, sr.2.2)

/-- `TaskManager.continueTask` (`tasks.js` lines 179-220).  The
`task.history.push(userMessage)` at line 192 and the
`task.status.message = userMessage` at line 217 mutate the deep copy
returned by `getTask` and are therefore bound to local values that the
store never sees; `processTask` then re-reads the stored task. -/
def continueTask (skills : SkillRegistry) (st : ManagerState) (taskId : String)
    (userMessage : Message) (now1 now2 : Int) :
    ManagerState × Output × Except EngineError Task :=
  match getTask st taskId 0 with
  | Except.error e => (st, Output.empty, Except.error (EngineError.rpc e))
  | Except.ok task =>
    if task.status.state ≠ TaskState.inputRequired then
      (st, Output.empty,
        Except.error (EngineError.rpc ⟨ErrorCodes.INVALID_TASK_STATE, "Task is not waiting for input"⟩))
    else
      let task := { task with history := some (task.history.getD [] ++ [userMessage]) }
      match (determineSkill task).bind skills with
      | none =>
        (st, Output.empty,
          Except.error (EngineError.js "TypeError: cannot read continueOrchestration of undefined"))
      | some skill =>
        match skill.continueOrchestration with
        | some cont =>
          match cont task with
          | Except.error emsg => (st, Output.empty, Except.error (EngineError.js emsg))
          | Except.ok result =>
            let ar := addArtifacts st taskId result.artifacts
            match ar.2.2 with
            | Except.error e => (ar.1, ar.2.1, Except.error (EngineError.rpc e))
            | Except.ok _ =>
              match result.message with
              | some m =>
                let stateNext :=
                  if result.task.status.state = TaskState.inputRequired then
                    TaskState.inputRequired
                  else TaskState.completed
                let ur := updateTaskStatus ar.1 taskId ⟨stateNext, some m, now1⟩
                match ur.2.2 with
                | Except.error e =>
                  (ur.1, Output.app ar.2.1 ur.2.1, Except.error (EngineError.rpc e))
                | Except.ok _ =>
                  match getTask ur.1 taskId 0 with
                  | Except.error e =>
                    (ur.1, Output.app ar.2.1 ur.2.1, Except.error (EngineError.rpc e))
                  | Except.ok t => (ur.1, Output.app ar.2.1 ur.2.1, Except.ok t)
              | none =>
                match getTask ar.1 taskId 0 with
                | Except.error e => (ar.1, ar.2.1, Except.error (EngineError.rpc e))
                | Except.ok t => (ar.1, ar.2.1, Except.ok t)
        | none =>
          let _task := { task with status := { task.status with message := some userMessage } }
          processTask skills st taskId now1 now2

/-- The synthesized cancellation message (`tasks.js` lines 237-240). -/
def cancelMessage : Message := ⟨"agent", [Part.text "Task canceled by user request"]⟩

/-- `TaskManager.cancelTask` (`tasks.js` lines 223-245). -/
def cancelTask (st : ManagerState) (taskId : String) (now : Int) :
    ManagerState × Output × Except JsonRpcError Task :=
  match getTask st taskId 0 with
  | Except.error e => (st, Output.empty, Except.error e)
  | Except.ok task =>
    if isTerminalState task.status.state then
      (st, Output.empty,
        Except.error ⟨ErrorCodes.TASK_NOT_CANCELABLE, "Task cannot be canceled"⟩)
    else
      let ur := updateTaskStatus st taskId ⟨TaskState.canceled, some cancelMessage, now⟩
      match ur.2.2 with
      | Except.error e => (ur.1, ur.2.1, Except.error e)
      | Except.ok _ =>
        match getTask ur.1 taskId 0 with
        | Except.error e => (ur.1, ur.2.1, Except.error e)
        | Except.ok t => (ur.1, ur.2.1, Except.ok t)

/-- The `{id, pushNotificationConfig}` result shape of the push-config
methods (`tasks.js` lines 257-260, 268-271). -/
structure PushConfigResult where
  id : String
  pushNotificationConfig : Option PushNotificationConfig
deriving DecidableEq, Repr

/-- `TaskManager.setPushNotificationConfig` (`tasks.js` lines 248-261):
`getTask` throws `NotFound` before the config map is touched; a truthy
config is stored, a null/absent one deletes any stored entry. -/
def setPushNotificationConfig (st : ManagerState) (taskId : String)
    (config : Option PushNotificationConfig) :
    ManagerState × Except JsonRpcError PushConfigResult :=
  match getTask st taskId 0 with
  | Except.error e => (st, Except.error e)
  | Except.ok _ =>
    match config with
    | some c =>
      ({ st with pushConfigs := setA st.pushConfigs taskId c }, Except.ok ⟨taskId, some c⟩)
    | none =>
      ({ st with pushConfigs := eraseA st.pushConfigs taskId }, Except.ok ⟨taskId, none⟩)

/-- `TaskManager.getPushNotificationConfig` (`tasks.js` lines 263-272):
`config || null` is the `Option` lookup. -/
def getPushNotificationConfig (st : ManagerState) (taskId : String) :
    Except JsonRpcError PushConfigResult :=
  match getTask st taskId 0 with
  | Except.error e => Except.error e
  | Except.ok _ => Except.ok ⟨taskId, lookupA st.pushConfigs taskId⟩

/-- `TaskManager.addStreamingConnection` (`tasks.js` lines 275-292): the
connection is registered first; the replay then sends the current status
with `isFinal` explicitly `false` and one event per stored artifact, where
the omitted third argument of `sendEvent` defaults to `false`
(`StreamingConnection.sendEvent(eventType, data, isFinal = false)`).
No connection is ever closed here. -/
def addStreamingConnection (st : ManagerState) (taskId : String) (conn : Nat) :
    ManagerState × Output × Except JsonRpcError Unit :=
  let st1 : ManagerState :=
    { st with streams := setA st.streams taskId ((lookupA st.streams taskId).getD [] ++ [conn]) }
  match getTask st1 taskId 0 with
  | Except.error e => (st1, Output.empty, Except.error e)
  | Except.ok task =>
    let evs := StreamEvent.mk conn (EventPayload.status task.status) false ::
      (task.artifacts.getD []).map (fun a => StreamEvent.mk conn (EventPayload.artifact a) false)
    (st1, ⟨evs, [], [], []⟩, Except.ok ())

/-- `TaskManager.removeStreamingConnection` (`tasks.js` lines 294-306). -/
def removeStreamingConnection (st : ManagerState) (taskId : String) (conn : Nat) :
    ManagerState :=
  match lookupA st.streams taskId with
  | none => st
  | some conns =>
    let conns1 := conns.erase conn
    if conns1 = [] then { st with streams := eraseA st.streams taskId }
    else { st with streams := setA st.streams taskId conns1 }

/-- The deletion test of the maintenance sweep (`tasks.js` lines 410-414):
`now - timestamp > maxAge` and the state is terminal. -/
def sweepExpired (now maxAge : Int) (task : Task) : Bool :=
  decide (maxAge < now - task.status.timestamp) && isTerminalState task.status.state

/-- `TaskManager.cleanupExpiredTasks` (`tasks.js` lines 406-419): delete
every task whose age exceeds `maxAge` and whose state is terminal, and drop
the push config of each deleted task. -/
def cleanupExpiredTasks (st : ManagerState) (now maxAge : Int) : ManagerState :=
  let deletedIds := (st.tasks.filter (fun p => sweepExpired now maxAge p.2)).map (fun p => p.1)
  { st with
    tasks := st.tasks.filter (fun p => !sweepExpired now maxAge p.2),
    pushConfigs := st.pushConfigs.filter (fun p => !(deletedIds.contains p.1)) }

theorem getTask_zero (st : ManagerState) (t : String) (task : Task)
    (h : lookupA st.tasks t = some task) : getTask st t 0 = Except.ok task := by
  simp [getTask, h]

theorem getTask_zero_none (st : ManagerState) (t : String)
    (h : lookupA st.tasks t = none) : getTask st t 0 = Except.error taskNotFoundError := by
  simp [getTask, h]

theorem notify_char (st : ManagerState) (t : String) (p : EventPayload) (task : Task)
    (h : lookupA st.tasks t = some task) :
    notifyStreamingConnections st t p =
      (match lookupA st.streams t with
      | none => (st, Output.empty, Except.ok ())
      | some conns =>
        if isTerminalState task.status.state then
          ({ st with streams := eraseA st.streams t },
            ⟨conns.map (fun c => ⟨c, p, true⟩), conns, [], []⟩, Except.ok ())
        else (st, ⟨conns.map (fun c => ⟨c, p, false⟩), [], [], []⟩, Except.ok ())) := by
  unfold notifyStreamingConnections
  rw [getTask_zero st t task h]
  cases lookupA st.streams t with
  | none => rfl
  | some conns =>
    by_cases hterm : isTerminalState task.status.state <;> simp [hterm]

theorem notify_tasks (st : ManagerState) (t : String) (p : EventPayload) :
    (notifyStreamingConnections st t p).1.tasks = st.tasks := by
  unfold notifyStreamingConnections
  cases lookupA st.streams t with
  | none => rfl
  | some conns =>
    cases getTask st t 0 with
    | error e => rfl
    | ok task => by_cases hterm : isTerminalState task.status.state <;> simp [hterm]

theorem notify_pushConfigs (st : ManagerState) (t : String) (p : EventPayload) :
    (notifyStreamingConnections st t p).1.pushConfigs = st.pushConfigs := by
  unfold notifyStreamingConnections
  cases lookupA st.streams t with
  | none => rfl
  | some conns =>
    cases getTask st t 0 with
    | error e => rfl
    | ok task => by_cases hterm : isTerminalState task.status.state <;> simp [hterm]

theorem notify_sessions (st : ManagerState) (t : String) (p : EventPayload) :
    (notifyStreamingConnections st t p).1.sessions = st.sessions := by
  unfold notifyStreamingConnections
  cases lookupA st.streams t with
  | none => rfl
  | some conns =>
    cases getTask st t 0 with
    | error e => rfl
    | ok task => by_cases hterm : isTerminalState task.status.state <;> simp [hterm]

theorem notify_ok (st : ManagerState) (t : String) (p : EventPayload)
    (h : (lookupA st.tasks t).isSome) :
    (notifyStreamingConnections st t p).2.2 = Except.ok () := by
  obtain ⟨task, htask⟩ := Option.isSome_iff_exists.mp h
  rw [notify_char st t p task htask]
  cases lookupA st.streams t with
  | none => rfl
  | some conns =>
    by_cases hterm : isTerminalState task.status.state <;> simp [hterm]

theorem updateTaskStatus_char (st : ManagerState) (t : String) (ns : TaskStatus) (task : Task)
    (h : lookupA st.tasks t = some task) :
    updateTaskStatus st t ns =
      (let stA : ManagerState := { st with tasks := setA st.tasks t (archiveStatus task ns) }
       let nr := notifyStreamingConnections stA t (EventPayload.status ns)
       (nr.1,
        (if (lookupA nr.1.pushConfigs t).isSome then Output.app nr.2.1 ⟨[], [], [t], []⟩
         else nr.2.1),
        Except.ok (archiveStatus task ns))) := by
  have hok : (notifyStreamingConnections
      { st with tasks := setA st.tasks t (archiveStatus task ns) } t
      (EventPayload.status ns)).2.2 = Except.ok () := by
    apply notify_ok
    simp [lookupA_setA_self]
  unfold updateTaskStatus
  rw [h]
  simp only []
  rw [show (archiveStatus task ns).status = ns from rfl] at *
  simp only [hok]

theorem updateTaskStatus_tasks (st : ManagerState) (t : String) (ns : TaskStatus) (task : Task)
    (h : lookupA st.tasks t = some task) :
    (updateTaskStatus st t ns).1.tasks = setA st.tasks t (archiveStatus task ns) := by
  rw [updateTaskStatus_char st t ns task h]
  simp [notify_tasks]

theorem updateTaskStatus_lookup (st : ManagerState) (t : String) (ns : TaskStatus) (task : Task)
    (h : lookupA st.tasks t = some task) :
    lookupA (updateTaskStatus st t ns).1.tasks t = some (archiveStatus task ns) := by
  rw [updateTaskStatus_tasks st t ns task h, lookupA_setA_self]

theorem updateTaskStatus_ok (st : ManagerState) (t : String) (ns : TaskStatus) (task : Task)
    (h : lookupA st.tasks t = some task) :
    (updateTaskStatus st t ns).2.2 = Except.ok (archiveStatus task ns) := by
  rw [updateTaskStatus_char st t ns task h]

theorem updateTaskStatus_pushConfigs (st : ManagerState) (t : String) (ns : TaskStatus)
    (task : Task) (h : lookupA st.tasks t = some task) :
    (updateTaskStatus st t ns).1.pushConfigs = st.pushConfigs := by
  rw [updateTaskStatus_char st t ns task h]
  simp [notify_pushConfigs]

theorem notify_no_streams (st : ManagerState) (t : String) (p : EventPayload)
    (h : lookupA st.streams t = none) :
    notifyStreamingConnections st t p = (st, Output.empty, Except.ok ()) := by
  unfold notifyStreamingConnections
  rw [h]

theorem notifyArtifacts_tasks (arts : List Artifact) (st : ManagerState) (t : String) :
    (notifyArtifacts st t arts).1.tasks = st.tasks := by
  induction arts generalizing st with
  | nil => rfl
  | cons a rest ih =>
    unfold notifyArtifacts
    cases hr : (notifyStreamingConnections st t (EventPayload.artifact a)).2.2 with
    | error e => simp [hr, notify_tasks]
    | ok u => simp [hr, ih, notify_tasks]

theorem notifyArtifacts_pushConfigs (arts : List Artifact) (st : ManagerState) (t : String) :
    (notifyArtifacts st t arts).1.pushConfigs = st.pushConfigs := by
  induction arts generalizing st with
  | nil => rfl
  | cons a rest ih =>
    unfold notifyArtifacts
    cases hr : (notifyStreamingConnections st t (EventPayload.artifact a)).2.2 with
    | error e => simp [hr, notify_pushConfigs]
    | ok u => simp [hr, ih, notify_pushConfigs]

theorem notifyArtifacts_ok (arts : List Artifact) (st : ManagerState) (t : String)
    (h : (lookupA st.tasks t).isSome) :
    (notifyArtifacts st t arts).2.2 = Except.ok () := by
  induction arts generalizing st with
  | nil => rfl
  | cons a rest ih =>
    unfold notifyArtifacts
    have hk := notify_ok st t (EventPayload.artifact a) h
    simp only [hk]
    apply ih
    rw [notify_tasks st t (EventPayload.artifact a)]
    exact h

/-- The artifact list stored by `addArtifacts` for a task found in the map. -/
def withArtifacts (task : Task) (arts : List Artifact) : Task :=
  { task with artifacts := some (task.artifacts.getD [] ++ arts) }

theorem addArtifacts_char (st : ManagerState) (t : String) (arts : List Artifact) (task : Task)
    (h : lookupA st.tasks t = some task) :
    (addArtifacts st t arts).1.tasks = setA st.tasks t (withArtifacts task arts) ∧
    (addArtifacts st t arts).2.2 = Except.ok (withArtifacts task arts) ∧
    (addArtifacts st t arts).1.pushConfigs = st.pushConfigs := by
  have hsome : (lookupA
      ({ st with tasks := setA st.tasks t (withArtifacts task arts) } : ManagerState).tasks
      t).isSome := by
    simp [lookupA_setA_self]
  have hok := notifyArtifacts_ok arts _ t hsome
  unfold addArtifacts
  rw [h]
  simp only [withArtifacts] at hok
  simp only [hok]
  refine ⟨?_, rfl, ?_⟩
  · rw [notifyArtifacts_tasks]
    rfl
  · rw [notifyArtifacts_pushConfigs]

theorem applySkillResult_completed (st : ManagerState) (t : String) (result : SkillResult)
    (now2 : Int) (task : Task) (h : lookupA st.tasks t = some task) :
    ∃ task2, lookupA (applySkillResult st t (Except.ok result) now2).1.tasks t = some task2 ∧
      task2.status = ⟨TaskState.completed, result.message, now2⟩ ∧
      (applySkillResult st t (Except.ok result) now2).2.2 = Except.ok task2 := by
  unfold applySkillResult
  by_cases hlen : 0 < result.artifacts.length
  · obtain ⟨htasks, hok, _⟩ := addArtifacts_char st t result.artifacts task h
    simp only [hlen, if_true, hok]
    have hlook : lookupA (addArtifacts st t result.artifacts).1.tasks t =
        some (withArtifacts task result.artifacts) := by
      rw [htasks, lookupA_setA_self]
    have hup := updateTaskStatus_ok _ t ⟨TaskState.completed, result.message, now2⟩ _ hlook
    have hupl := updateTaskStatus_lookup _ t ⟨TaskState.completed, result.message, now2⟩ _ hlook
    simp only [hup]
    rw [getTask_zero _ t _ hupl]
    exact ⟨_, hupl, rfl, rfl⟩
  · simp only [hlen, if_false]
    have hup := updateTaskStatus_ok st t ⟨TaskState.completed, result.message, now2⟩ task h
    have hupl := updateTaskStatus_lookup st t ⟨TaskState.completed, result.message, now2⟩ task h
    simp only [hup]
    rw [getTask_zero _ t _ hupl]
    exact ⟨_, hupl, rfl, rfl⟩

theorem eraseA_of_lookup_none {α : Type} (m : List (String × α)) (k : String)
    (h : lookupA m k = none) : eraseA m k = m := by
  induction m with
  | nil => rfl
  | cons p rest ih =>
    obtain ⟨k2, v⟩ := p
    by_cases hk : k2 = k
    · subst hk; simp at h
    · simp only [lookupA_cons, if_neg hk] at h
      have h2 := ih h
      simp only [eraseA] at h2 ⊢
      rw [List.filter_cons]
      simp [bne_iff_ne, hk, h2]

theorem updateTaskStatus_terminal_char (st : ManagerState) (t : String) (ns : TaskStatus)
    (task : Task) (h : lookupA st.tasks t = some task)
    (hterm : isTerminalState ns.state = true) :
    updateTaskStatus st t ns =
      ({ st with tasks := setA st.tasks t (archiveStatus task ns),
                 streams := eraseA st.streams t },
       ⟨((lookupA st.streams t).getD []).map (fun c => ⟨c, EventPayload.status ns, true⟩),
        (lookupA st.streams t).getD [],
        (if (lookupA st.pushConfigs t).isSome then [t] else []), []⟩,
       Except.ok (archiveStatus task ns)) := by
  have hl2 : lookupA
      ({ st with tasks := setA st.tasks t (archiveStatus task ns) } : ManagerState).tasks t =
      some (archiveStatus task ns) := by
    simp [lookupA_setA_self]
  have harch : isTerminalState (archiveStatus task ns).status.state = true := hterm
  rw [updateTaskStatus_char st t ns task h]
  simp only []
  rw [notify_char _ t _ _ hl2]
  cases hs : lookupA st.streams t with
  | none =>
    simp only [hs, harch]
    rw [eraseA_of_lookup_none st.streams t hs]
    by_cases hpc : (lookupA st.pushConfigs t).isSome <;>
      simp [hpc, Output.app, Output.empty]
  | some conns =>
    simp only [hs, harch, if_true]
    by_cases hpc : (lookupA st.pushConfigs t).isSome <;>
      simp [hpc, Output.app, Output.empty]

/-- Claim C3: when a task transitions into a terminal state via
`updateTaskStatus`, every streaming subscription registered for it at that
moment receives exactly one event, tagged `final = true` (the status event
of the transition, one delivery per registration), every one of those
subscriptions is closed and the registry entry for the task is removed, and
a later `notifyStreamingConnections` for that task delivers no event at
all. -/
theorem claim_C3 (st : ManagerState) (t : String) (ns : TaskStatus) (task : Task)
    (h : lookupA st.tasks t = some task) (hterm : isTerminalState ns.state = true) :
    (updateTaskStatus st t ns).2.1.events =
      ((lookupA st.streams t).getD []).map
        (fun c => StreamEvent.mk c (EventPayload.status ns) true) ∧
    (updateTaskStatus st t ns).2.1.closed = (lookupA st.streams t).getD [] ∧
    lookupA (updateTaskStatus st t ns).1.streams t = none ∧
    (∀ p, notifyStreamingConnections (updateTaskStatus st t ns).1 t p =
      ((updateTaskStatus st t ns).1, Output.empty, Except.ok ())) := by
  rw [updateTaskStatus_terminal_char st t ns task h hterm]
  refine ⟨rfl, rfl, ?_, ?_⟩
  · exact lookupA_eraseA_self st.streams t
  · intro p
    exact notify_no_streams _ t p (lookupA_eraseA_self st.streams t)

theorem processTask_completed (skills : SkillRegistry) (st : ManagerState) (t : String)
    (now1 now2 : Int) (task : Task) (sid : String) (skill : Skill) (result : SkillResult)
    (h : lookupA st.tasks t = some task)
    (hsid : determineSkill task = some sid)
    (hsk : skills sid = some skill)
    (hres : skill.process task = Except.ok result) :
    ∃ task2, lookupA (processTask skills st t now1 now2).1.tasks t = some task2 ∧
      task2.status = ⟨TaskState.completed, result.message, now2⟩ ∧
      (processTask skills st t now1 now2).2.2 = Except.ok task2 := by
  have hup := updateTaskStatus_ok st t ⟨TaskState.working, none, now1⟩ task h
  have hupl := updateTaskStatus_lookup st t ⟨TaskState.working, none, now1⟩ task h
  obtain ⟨task2, hl2, hs2, hr2⟩ :=
    applySkillResult_completed (updateTaskStatus st t ⟨TaskState.working, none, now1⟩).1 t
      result now2 _ hupl
  unfold processTask
  rw [getTask_zero st t task h]
  simp only [hsid, hsk, hup, hres]
  exact ⟨task2, hl2, hs2, hr2⟩

/-- A sequence of `updateTaskStatus` calls issued against one task, each
applied to the state the previous call left behind. -/
def runUpdates : ManagerState → String → List TaskStatus → ManagerState
  | st, _, [] => st
  | st, t, ns :: rest => runUpdates (updateTaskStatus st t ns).1 t rest

/-- The status current after a sequence of updates: the last update in the
sequence, or the starting status for an empty sequence. -/
def lastStatus (s0 : TaskStatus) : List TaskStatus → TaskStatus
  | [] => s0
  | ns :: rest => lastStatus ns rest

theorem archiveStatus_history (task : Task) (ns : TaskStatus) :
    (archiveStatus task ns).history.getD [] =
      task.history.getD [] ++ task.status.message.toList := by
  cases hm : task.status.message <;> simp [archiveStatus, hm]

theorem runUpdates_char (L : List TaskStatus) (st : ManagerState) (t : String) (task : Task)
    (h : lookupA st.tasks t = some task) :
    ∃ task2, lookupA (runUpdates st t L).tasks t = some task2 ∧
      task2.history.getD [] =
        task.history.getD [] ++ ((task.status :: L).dropLast.filterMap (fun s => s.message)) ∧
      task2.status = lastStatus task.status L := by
  induction L generalizing st task with
  | nil => exact ⟨task, h, by simp, rfl⟩
  | cons ns rest ih =>
    have h1 := updateTaskStatus_lookup st t ns task h
    obtain ⟨task2, hl, hh, hs⟩ := ih _ _ h1
    refine ⟨task2, hl, ?_, ?_⟩
    · rw [hh, archiveStatus_history]
      rw [show (archiveStatus task ns).status = ns from rfl]
      rw [List.dropLast_cons₂, List.filterMap_cons]
      cases hm : task.status.message <;> simp [hm, List.append_assoc]
    · rw [hs]
      rw [show (archiveStatus task ns).status = ns from rfl]
      rfl

theorem createTask_fresh (st : ManagerState) (id : String) (sessionId : Option String)
    (message : Option Message) (now : Int) (h : lookupA st.tasks id = none) :
    (createTask st id sessionId message now).2 =
      Except.ok ⟨id, sessionId, ⟨TaskState.submitted, message, now⟩, some [], none, ⟨none⟩⟩ ∧
    lookupA (createTask st id sessionId message now).1.tasks id =
      some ⟨id, sessionId, ⟨TaskState.submitted, message, now⟩, some [], none, ⟨none⟩⟩ := by
  unfold createTask
  rw [h]
  cases sessionId <;> simp [lookupA_setA_self]

end TaskManager

theorem length_filterMap_message (L : List TaskStatus) :
    (L.filterMap (fun s => s.message)).length = L.countP (fun s => s.message.isSome) := by
  induction L with
  | nil => rfl
  | cons s rest ih =>
    cases hm : s.message <;> simp [List.filterMap_cons, hm, List.countP_cons, ih]

open TaskManager

/-- Claim C4: for a freshly created task and any sequence of
`updateTaskStatus` calls on it, the stored history is exactly the ordered
list of messages of the prior statuses that carried one (oldest first), its
length is the number of prior statuses with a non-null message, the
current status is the last one installed, and the current status's message
can be in history only when it coincides with a prior status's message —
the update never duplicates the current status into history. -/
theorem claim_C4 (st : ManagerState) (id : String) (sessionId : Option String)
    (message : Option Message) (now : Int) (L : List TaskStatus)
    (h : lookupA st.tasks id = none) :
    ∃ task2,
      lookupA (runUpdates (createTask st id sessionId message now).1 id L).tasks id
        = some task2 ∧
      task2.history.getD [] =
        (TaskStatus.mk TaskState.submitted message now :: L).dropLast.filterMap
          (fun s => s.message) ∧
      (task2.history.getD []).length =
        (TaskStatus.mk TaskState.submitted message now :: L).dropLast.countP
          (fun s => s.message.isSome) ∧
      task2.status = lastStatus ⟨TaskState.submitted, message, now⟩ L ∧
      (∀ m, task2.status.message = some m →
        m ∉ (TaskStatus.mk TaskState.submitted message now :: L).dropLast.filterMap
          (fun s => s.message) →
        m ∉ task2.history.getD []) := by
  obtain ⟨-, hcl⟩ := createTask_fresh st id sessionId message now h
  obtain ⟨task2, hl, hh, hs⟩ := runUpdates_char L _ id _ hcl
  simp only [Option.getD_none, List.nil_append] at hh
  refine ⟨task2, hl, hh, ?_, hs, ?_⟩
  · rw [hh]; simp [length_filterMap_message]
  · intro m _ hnotin
    rw [hh]
    exact hnotin

/-- Claim C6: `cancelTask` on a task in a terminal state fails with the
`TaskNotCancelable` error and leaves the manager unchanged; on a task in
any non-terminal state it succeeds and stores state `canceled` carrying the
synthesized cancellation message. -/
theorem claim_C6 (st : ManagerState) (t : String) (now : Int) (task : Task)
    (h : lookupA st.tasks t = some task) :
    (isTerminalState task.status.state = true →
      cancelTask st t now =
        (st, Output.empty,
          Except.error ⟨ErrorCodes.TASK_NOT_CANCELABLE, "Task cannot be canceled"⟩)) ∧
    (isTerminalState task.status.state = false →
      ∃ task2, lookupA (cancelTask st t now).1.tasks t = some task2 ∧
        task2.status.state = TaskState.canceled ∧
        task2.status.message = some cancelMessage ∧
        (cancelTask st t now).2.2 = Except.ok task2) := by
  constructor
  · intro hterm
    unfold cancelTask
    rw [getTask_zero st t task h]
    simp [hterm]
  · intro hnt
    have hup := updateTaskStatus_ok st t ⟨TaskState.canceled, some cancelMessage, now⟩ task h
    have hupl := updateTaskStatus_lookup st t ⟨TaskState.canceled, some cancelMessage, now⟩ task h
    unfold cancelTask
    rw [getTask_zero st t task h]
    simp only [hnt, Bool.false_eq_true, if_false, hup]
    rw [getTask_zero _ t _ hupl]
    exact ⟨_, hupl, rfl, rfl, rfl⟩

/-- Claim C7: the maintenance sweep deletes exactly the tasks that are both
older than `maxAge` and in a terminal state, drops the push config of every
deleted task (and only those), and keeps every non-terminal task no matter
its age. -/
theorem claim_C7 (st : ManagerState) (now maxAge : Int) (id : String) (task : Task)
    (c : PushNotificationConfig) :
    ((id, task) ∈ (cleanupExpiredTasks st now maxAge).tasks ↔
      (id, task) ∈ st.tasks ∧
        ¬(maxAge < now - task.status.timestamp ∧ isTerminalState task.status.state = true)) ∧
    ((id, c) ∈ (cleanupExpiredTasks st now maxAge).pushConfigs ↔
      (id, c) ∈ st.pushConfigs ∧
        ¬∃ task2, (id, task2) ∈ st.tasks ∧ maxAge < now - task2.status.timestamp ∧
          isTerminalState task2.status.state = true) := by
  have hswc : ∀ tk : Task, sweepExpired now maxAge tk = true ↔
      (maxAge < now - tk.status.timestamp ∧ isTerminalState tk.status.state = true) := by
    intro tk
    simp [sweepExpired]
  constructor
  · simp only [cleanupExpiredTasks, List.mem_filter]
    constructor
    · rintro ⟨hm, hb⟩
      refine ⟨hm, fun hc => ?_⟩
      rw [(hswc task).mpr hc] at hb
      cases hb
    · rintro ⟨hm, hn⟩
      refine ⟨hm, ?_⟩
      cases hb : sweepExpired now maxAge task with
      | false => rfl
      | true => exact absurd ((hswc task).mp hb) hn
  · simp only [cleanupExpiredTasks, List.mem_filter]
    have hkey : ((st.tasks.filter (fun p => sweepExpired now maxAge p.2)).map
        (fun p => p.1)).contains id = true ↔
        ∃ task2, (id, task2) ∈ st.tasks ∧ maxAge < now - task2.status.timestamp ∧
          isTerminalState task2.status.state = true := by
      rw [show (((st.tasks.filter (fun p => sweepExpired now maxAge p.2)).map
        (fun p => p.1)).contains id = true) ↔
        (id ∈ (st.tasks.filter (fun p => sweepExpired now maxAge p.2)).map
          (fun p => p.1)) from List.elem_iff]
      constructor
      · intro hin
        rw [List.mem_map] at hin
        obtain ⟨⟨id2, task2⟩, hpm, hxe⟩ := hin
        rw [List.mem_filter] at hpm
        obtain ⟨htm, hswt⟩ := hpm
        obtain ⟨hage, hts⟩ := (hswc task2).mp hswt
        cases hxe
        exact ⟨task2, htm, hage, hts⟩
      · rintro ⟨task2, htm, hage, hts⟩
        rw [List.mem_map]
        refine ⟨(id, task2), ?_, rfl⟩
        rw [List.mem_filter]
        exact ⟨htm, (hswc task2).mpr ⟨hage, hts⟩⟩
    constructor
    · rintro ⟨hm, hb⟩
      refine ⟨hm, fun hc => ?_⟩
      rw [hkey.mpr hc] at hb
      cases hb
    · rintro ⟨hm, hn⟩
      refine ⟨hm, ?_⟩
      cases hb : ((st.tasks.filter (fun p => sweepExpired now maxAge p.2)).map
          (fun p => p.1)).contains id with
      | false => rfl
      | true => exact absurd (hkey.mp hb) hn

/-- Claim C8: whenever the skill invocation started by `processTask`
resolves successfully, the stored task ends in state `completed` — never
`input-required` — no matter what the capability returned as its (possibly
mutated) copy of the task: the skill only ever receives the deep copy made
by `getTask`, and `processTask` never writes that copy back.  The
quantification over `result` covers every possible mutation of the copy,
including `requestUserInput` setting the copy's status to
`input-required`. -/
theorem claim_C8 (skills : SkillRegistry) (st : ManagerState) (t : String) (now1 now2 : Int)
    (task : Task) (sid : String) (skill : Skill) (result : SkillResult)
    (h : lookupA st.tasks t = some task)
    (hsid : determineSkill task = some sid)
    (hsk : skills sid = some skill)
    (hres : skill.process task = Except.ok result) :
    ∃ task2, lookupA (processTask skills st t now1 now2).1.tasks t = some task2 ∧
      task2.status.state = TaskState.completed ∧
      task2.status.state ≠ TaskState.inputRequired ∧
      task2.status.message = result.message ∧
      (processTask skills st t now1 now2).2.2 = Except.ok task2 := by
  obtain ⟨task2, hl, hs, hr⟩ :=
    processTask_completed skills st t now1 now2 task sid skill result h hsid hsk hres
  refine ⟨task2, hl, ?_, ?_, ?_, hr⟩
  · rw [hs]
  · rw [hs]; intro hc; cases hc
  · rw [hs]

/-- Claim C9: attaching a streaming subscription to a task already in a
terminal state replays the current status and every stored artifact to the
new connection, all tagged `final = false`, closes nothing, and leaves the
subscription registered (appended to the task's connection list). -/
theorem claim_C9 (st : ManagerState) (t : String) (conn : Nat) (task : Task)
    (h : lookupA st.tasks t = some task)
    (_hterm : isTerminalState task.status.state = true) :
    (addStreamingConnection st t conn).2.2 = Except.ok () ∧
    (addStreamingConnection st t conn).2.1.events =
      StreamEvent.mk conn (EventPayload.status task.status) false ::
        (task.artifacts.getD []).map
          (fun a => StreamEvent.mk conn (EventPayload.artifact a) false) ∧
    (∀ e, e ∈ (addStreamingConnection st t conn).2.1.events → e.final = false) ∧
    (addStreamingConnection st t conn).2.1.closed = [] ∧
    lookupA (addStreamingConnection st t conn).1.streams t =
      some ((lookupA st.streams t).getD [] ++ [conn]) := by
  have hT : lookupA
      ({ st with streams := setA st.streams t ((lookupA st.streams t).getD [] ++ [conn]) } :
        ManagerState).tasks t = some task := h
  unfold addStreamingConnection
  simp only [getTask_zero _ t task hT]
  refine ⟨trivial, trivial, ?_, trivial, lookupA_setA_self _ _ _⟩
  intro e he
  simp only [List.mem_cons, List.mem_map] at he
  rcases he with he | ⟨a, _, he⟩
  · rw [he]
  · rw [← he]

/-- Claim C10: both push-config operations fail with `NotFound` for a task
id not in the task map, the failing `set` leaving the whole state (hence
the config map) untouched; for an existing task, `set` with a null/absent
config deletes any stored config, and `get` returns a null
`pushNotificationConfig` when none is stored. -/
theorem claim_C10 (st : ManagerState) (t : String) (cfg : Option PushNotificationConfig) :
    (lookupA st.tasks t = none →
      setPushNotificationConfig st t cfg = (st, Except.error taskNotFoundError) ∧
      getPushNotificationConfig st t = Except.error taskNotFoundError) ∧
    ((lookupA st.tasks t).isSome →
      (setPushNotificationConfig st t none).1.pushConfigs = eraseA st.pushConfigs t ∧
      lookupA (setPushNotificationConfig st t none).1.pushConfigs t = none ∧
      (setPushNotificationConfig st t none).2 = Except.ok ⟨t, none⟩ ∧
      (lookupA st.pushConfigs t = none →
        getPushNotificationConfig st t = Except.ok ⟨t, none⟩)) := by
  constructor
  · intro h
    constructor
    · unfold setPushNotificationConfig
      rw [getTask_zero_none st t h]
    · unfold getPushNotificationConfig
      rw [getTask_zero_none st t h]
  · intro h
    obtain ⟨task, htask⟩ := Option.isSome_iff_exists.mp h
    refine ⟨?_, ?_, ?_, ?_⟩
    · unfold setPushNotificationConfig
      rw [getTask_zero st t task htask]
    · unfold setPushNotificationConfig
      rw [getTask_zero st t task htask]
      exact lookupA_eraseA_self st.pushConfigs t
    · unfold setPushNotificationConfig
      rw [getTask_zero st t task htask]
    · intro hc
      unfold getPushNotificationConfig
      rw [getTask_zero st t task htask, hc]

/-- Modelled from the spec: §7 lists `AlreadyExists` and `InvalidParams` as
distinct entries of the error taxonomy (`InvalidParams` reserved for a
malformed message/part/missing required field) and requires every protocol
error to carry a machine-readable code, so an error that counts as the
`AlreadyExists` error must carry a code different from the `InvalidParams`
code. -/
def IsAlreadyExistsError (e : JsonRpcError) : Prop :=
  e.code ≠ ErrorCodes.INVALID_PARAMS

/-- A demonstration task and state: one submitted task `t1` whose trigger
message routes to `text-analysis`. -/
def demoMessage : Message := ⟨"user", [Part.text "please analyze this"]⟩

def demoTask : Task :=
  ⟨"t1", none, ⟨TaskState.submitted, some demoMessage, 0⟩, some [], none, ⟨none⟩⟩

def demoState : ManagerState := ⟨[("t1", demoTask)], [], [], []⟩

/-- Claim C5 counterexample: `createTask` on the already-registered id `t1`
fails with the JSON-RPC code `-32602` — the very `InvalidParams` code the
dispatcher uses for malformed parameters — so the duplicate-id failure is
not a distinct `AlreadyExists` error. -/
theorem claim_C5_counterexample :
    (createTask demoState "t1" none (some demoMessage) 3).2 =
      Except.error ⟨ErrorCodes.INVALID_PARAMS, "Task with this ID already exists"⟩ ∧
    (createTask demoState "t1" none (some demoMessage) 3).1 = demoState ∧
    ErrorCodes.INVALID_PARAMS = -32602 ∧
    ¬ IsAlreadyExistsError ⟨ErrorCodes.INVALID_PARAMS, "Task with this ID already exists"⟩ := by
  refine ⟨rfl, by decide, by decide, ?_⟩
  intro hne
  exact hne rfl

/-- Claim C5 (amended): `createTask` on an already-registered id fails with
the JSON-RPC `InvalidParams` code `-32602` carrying the message `Task with
this ID already exists` — not a dedicated `AlreadyExists` code — and leaves
the manager (hence the existing task) unchanged; on a fresh id it succeeds
and stores status `submitted` carrying the initial message. -/
theorem claim_C5 (st : ManagerState) (id : String) (sessionId : Option String)
    (message : Option Message) (now : Int) :
    ((lookupA st.tasks id).isSome →
      createTask st id sessionId message now =
        (st, Except.error ⟨ErrorCodes.INVALID_PARAMS, "Task with this ID already exists"⟩)) ∧
    (lookupA st.tasks id = none →
      (createTask st id sessionId message now).2 =
        Except.ok ⟨id, sessionId, ⟨TaskState.submitted, message, now⟩, some [], none, ⟨none⟩⟩ ∧
      lookupA (createTask st id sessionId message now).1.tasks id =
        some ⟨id, sessionId, ⟨TaskState.submitted, message, now⟩, some [], none, ⟨none⟩⟩) := by
  constructor
  · intro h
    unfold createTask
    rw [h]
    rfl
  · intro h
    exact createTask_fresh st id sessionId message now h

/-- A task already canceled (terminal), as left behind by `cancelTask`
while a skill invocation is still in flight. -/
def canceledTask : Task :=
  ⟨"t1", none, ⟨TaskState.canceled, some cancelMessage, 0⟩, some [], none, ⟨none⟩⟩

def canceledState : ManagerState := ⟨[("t1", canceledTask)], [], [], []⟩

def lateResultMessage : Message := ⟨"agent", [Part.text "late skill result"]⟩

/-- Claim C1 (refuting evaluation): the result-application step of
`processTask` (`tasks.js` lines 149-163) performs no terminality check:
run on a task whose stored state is already the terminal `canceled`, it
overwrites that state with `completed` carrying the late skill result,
instead of discarding the result as the claim (and the state machine of
the spec) requires. -/
theorem claim_C1 :
    (lookupA canceledState.tasks "t1").map (fun tk => tk.status.state) =
      some TaskState.canceled ∧
    isTerminalState TaskState.canceled = true ∧
    (lookupA (applySkillResult canceledState "t1"
        (Except.ok ⟨canceledTask, some lateResultMessage, []⟩) 9).1.tasks "t1").map
      (fun tk => tk.status.state) = some TaskState.completed ∧
    (applySkillResult canceledState "t1"
        (Except.ok ⟨canceledTask, some lateResultMessage, []⟩) 9).2.2 =
      Except.ok ⟨"t1", none, ⟨TaskState.completed, some lateResultMessage, 9⟩, some [],
        some [cancelMessage], ⟨none⟩⟩ := by
  refine ⟨by decide, by decide, by decide, rfl⟩

/-- A task waiting for user input with its original trigger message, and a
registry whose resolved capability (`text-analysis`) has no
`continueOrchestration` operation. -/
def oldTrigger : Message := ⟨"user", [Part.text "please analyze the report"]⟩

def newUserInput : Message := ⟨"user", [Part.text "here is the second half"]⟩

def waitingTask : Task :=
  ⟨"t2", none, ⟨TaskState.inputRequired, some oldTrigger, 0⟩, some [], none, ⟨none⟩⟩

def waitingState : ManagerState := ⟨[("t2", waitingTask)], [], [], []⟩

def analysisReply : Message := ⟨"agent", [Part.text "analysis complete"]⟩

def plainAnalysisSkill : Skill :=
  ⟨fun tk => Except.ok ⟨tk, some analysisReply, []⟩, none⟩

def demoRegistry : SkillRegistry := fun sid =>
  if sid = "text-analysis" then some plainAnalysisSkill else none

/-- Claim C2 (refuting evaluation): `continueTask` on an `input-required`
task whose capability has no continue operation mutates only the deep copy
(`tasks.js` lines 191-192 and 217): the restarted `processTask` hands the
skill a copy still carrying the old trigger message and a null history, and
the stored task's history ends as `[oldTrigger]` (archived by the `working`
transition) — the user's message is appended nowhere and is never observed
by the restarted processing. -/
theorem claim_C2 :
    ((continueTask demoRegistry waitingState "t2" newUserInput 1 2).2.1.skillCalls.map
      (fun tk => tk.status.message)) = [some oldTrigger] ∧
    ((continueTask demoRegistry waitingState "t2" newUserInput 1 2).2.1.skillCalls.map
      (fun tk => tk.history)) = [none] ∧
    (lookupA (continueTask demoRegistry waitingState "t2" newUserInput 1 2).1.tasks "t2").map
      (fun tk => tk.history) = some (some [oldTrigger]) ∧
    oldTrigger ≠ newUserInput := by
  refine ⟨by decide, by decide, by decide, by decide⟩

/-- Concrete witness states shared by the witness theorems below. -/
def emptyState : ManagerState := ⟨[], [], [], []⟩

def streamedState : ManagerState := ⟨[("t1", demoTask)], [], [], [("t1", [7, 8])]⟩

def doneArtifact : Artifact := ⟨"analysis-summary.txt", none, [Part.text "summary"], 0, false, false⟩

def doneTask : Task :=
  ⟨"t3", none, ⟨TaskState.completed, none, 4⟩, some [doneArtifact], some [], ⟨none⟩⟩

def doneState : ManagerState := ⟨[("t3", doneTask)], [], [], []⟩

def configuredConfig : PushNotificationConfig := ⟨"https://example.com/hook", some "tok"⟩

def mutatedCopy : Task :=
  { demoTask with
    status := ⟨TaskState.inputRequired, demoTask.status.message, demoTask.status.timestamp⟩ }

/-- A capability modelled on `requestUserInput`: it mutates its copy of the
task to `input-required` and resolves with a message and no artifacts. -/
def inputRequestingSkill : Skill :=
  ⟨fun tk => Except.ok
      ⟨{ tk with status := ⟨TaskState.inputRequired, tk.status.message, tk.status.timestamp⟩ },
        some analysisReply, []⟩, none⟩

def inputRequestingResult : SkillResult := ⟨mutatedCopy, some analysisReply, []⟩

def mutatingRegistry : SkillRegistry := fun sid =>
  if sid = "text-analysis" then some inputRequestingSkill else none

theorem claim_C3_witness :
    (updateTaskStatus streamedState "t1" ⟨TaskState.completed, none, 5⟩).2.1.events =
      ((lookupA streamedState.streams "t1").getD []).map
        (fun c => StreamEvent.mk c (EventPayload.status ⟨TaskState.completed, none, 5⟩) true) ∧
    (updateTaskStatus streamedState "t1" ⟨TaskState.completed, none, 5⟩).2.1.closed =
      (lookupA streamedState.streams "t1").getD [] ∧
    lookupA (updateTaskStatus streamedState "t1"
      ⟨TaskState.completed, none, 5⟩).1.streams "t1" = none ∧
    (∀ p, notifyStreamingConnections
        (updateTaskStatus streamedState "t1" ⟨TaskState.completed, none, 5⟩).1 "t1" p =
      ((updateTaskStatus streamedState "t1" ⟨TaskState.completed, none, 5⟩).1,
        Output.empty, Except.ok ())) :=
  claim_C3 streamedState "t1" ⟨TaskState.completed, none, 5⟩ demoTask (by decide) (by decide)

theorem claim_C4_witness :
    ∃ task2,
      lookupA (runUpdates (createTask emptyState "t1" none (some demoMessage) 0).1 "t1"
        [⟨TaskState.working, none, 1⟩, ⟨TaskState.completed, some analysisReply, 2⟩]).tasks "t1"
        = some task2 ∧
      task2.history.getD [] =
        (TaskStatus.mk TaskState.submitted (some demoMessage) 0 ::
          [⟨TaskState.working, none, 1⟩,
           ⟨TaskState.completed, some analysisReply, 2⟩]).dropLast.filterMap
          (fun s => s.message) ∧
      (task2.history.getD []).length =
        (TaskStatus.mk TaskState.submitted (some demoMessage) 0 ::
          [⟨TaskState.working, none, 1⟩,
           ⟨TaskState.completed, some analysisReply, 2⟩]).dropLast.countP
          (fun s => s.message.isSome) ∧
      task2.status = lastStatus ⟨TaskState.submitted, some demoMessage, 0⟩
        [⟨TaskState.working, none, 1⟩, ⟨TaskState.completed, some analysisReply, 2⟩] ∧
      (∀ m, task2.status.message = some m →
        m ∉ (TaskStatus.mk TaskState.submitted (some demoMessage) 0 ::
          [⟨TaskState.working, none, 1⟩,
           ⟨TaskState.completed, some analysisReply, 2⟩]).dropLast.filterMap
          (fun s => s.message) →
        m ∉ task2.history.getD []) :=
  claim_C4 emptyState "t1" none (some demoMessage) 0
    [⟨TaskState.working, none, 1⟩, ⟨TaskState.completed, some analysisReply, 2⟩] rfl

theorem claim_C5_witness :
    createTask demoState "t1" none (some demoMessage) 3 =
      (demoState, Except.error ⟨ErrorCodes.INVALID_PARAMS, "Task with this ID already exists"⟩) ∧
    (createTask demoState "t9" none (some demoMessage) 4).2 =
      Except.ok ⟨"t9", none, ⟨TaskState.submitted, some demoMessage, 4⟩, some [], none, ⟨none⟩⟩ ∧
    lookupA (createTask demoState "t9" none (some demoMessage) 4).1.tasks "t9" =
      some ⟨"t9", none, ⟨TaskState.submitted, some demoMessage, 4⟩, some [], none, ⟨none⟩⟩ :=
  ⟨(claim_C5 demoState "t1" none (some demoMessage) 3).1 (by decide),
   ((claim_C5 demoState "t9" none (some demoMessage) 4).2 (by decide)).1,
   ((claim_C5 demoState "t9" none (some demoMessage) 4).2 (by decide)).2⟩

theorem claim_C6_witness :
    cancelTask canceledState "t1" 7 =
      (canceledState, Output.empty,
        Except.error ⟨ErrorCodes.TASK_NOT_CANCELABLE, "Task cannot be canceled"⟩) ∧
    (∃ task2, lookupA (cancelTask demoState "t1" 7).1.tasks "t1" = some task2 ∧
      task2.status.state = TaskState.canceled ∧
      task2.status.message = some cancelMessage ∧
      (cancelTask demoState "t1" 7).2.2 = Except.ok task2) :=
  ⟨(claim_C6 canceledState "t1" 7 canceledTask (by decide)).1 (by decide),
   (claim_C6 demoState "t1" 7 demoTask (by decide)).2 (by decide)⟩

theorem claim_C8_witness :
    ∃ task2, lookupA (processTask mutatingRegistry demoState "t1" 1 2).1.tasks "t1"
        = some task2 ∧
      task2.status.state = TaskState.completed ∧
      task2.status.state ≠ TaskState.inputRequired ∧
      task2.status.message = inputRequestingResult.message ∧
      (processTask mutatingRegistry demoState "t1" 1 2).2.2 = Except.ok task2 :=
  claim_C8 mutatingRegistry demoState "t1" 1 2 demoTask "text-analysis"
    inputRequestingSkill inputRequestingResult (by decide) (by decide) rfl rfl

theorem claim_C9_witness :
    (addStreamingConnection doneState "t3" 9).2.2 = Except.ok () ∧
    (addStreamingConnection doneState "t3" 9).2.1.events =
      StreamEvent.mk 9 (EventPayload.status doneTask.status) false ::
        (doneTask.artifacts.getD []).map
          (fun a => StreamEvent.mk 9 (EventPayload.artifact a) false) ∧
    (∀ e, e ∈ (addStreamingConnection doneState "t3" 9).2.1.events → e.final = false) ∧
    (addStreamingConnection doneState "t3" 9).2.1.closed = [] ∧
    lookupA (addStreamingConnection doneState "t3" 9).1.streams "t3" =
      some ((lookupA doneState.streams "t3").getD [] ++ [9]) :=
  claim_C9 doneState "t3" 9 doneTask (by decide) (by decide)

theorem claim_C10_witness :
    setPushNotificationConfig demoState "missing" (some configuredConfig) =
      (demoState, Except.error taskNotFoundError) ∧
    getPushNotificationConfig demoState "missing" = Except.error taskNotFoundError ∧
    (setPushNotificationConfig demoState "t1" none).1.pushConfigs =
      eraseA demoState.pushConfigs "t1" ∧
    lookupA (setPushNotificationConfig demoState "t1" none).1.pushConfigs "t1" = none ∧
    (setPushNotificationConfig demoState "t1" none).2 = Except.ok ⟨"t1", none⟩ ∧
    getPushNotificationConfig demoState "t1" = Except.ok ⟨"t1", none⟩ :=
  ⟨((claim_C10 demoState "missing" (some configuredConfig)).1 (by decide)).1,
   ((claim_C10 demoState "missing" (some configuredConfig)).1 (by decide)).2,
   ((claim_C10 demoState "t1" none).2 (by decide)).1,
   ((claim_C10 demoState "t1" none).2 (by decide)).2.1,
   ((claim_C10 demoState "t1" none).2 (by decide)).2.2.1,
   ((claim_C10 demoState "t1" none).2 (by decide)).2.2.2 (by decide)⟩

end A2A
